import Mathlib

/-!
Shallow embedding of the name-driven inference and field-normalization
engine of the product-catalog ingestion repository (canonical module
`src/utils.py`, orchestrated by `src/processor.py`).

Modelling conventions:
* Python strings are Lean `String` / `List Char`; all scanning is done on
  the character list.
* pandas `NaN` is pandas's null (`pd.notnull nan = False`), so a numeric
  result that is `NaN` — and a missing input cell — are both modelled as
  `Option.none`.
* Python floats are modelled as `ℚ`; `round(x, k)` is modelled as rounding
  `x * 10^k` to the nearest integer.  No claim below exercises a tie, so
  the tie-breaking convention is irrelevant to the results.
* Third-party library calls (`unidecode`, `pd.to_numeric`,
  `datetime.fromisoformat`) are modelled by executable Lean functions
  covering the character and string shapes the catalog data uses; each
  model is documented at its definition.
* The regex searches of `utils.py` are hand-compiled to leftmost-match
  scanners over `List Char`.  For each pattern the compilation accounts
  for Python's backtracking: greedy `\d+` runs never need to be shortened
  (the continuation would then start with a digit, which no following
  token matches), so the only genuine choice point is whether the
  optional fractional part `(?:[.,]\d+)?` participates in the match.
-/

/-- Python `\d` (ASCII decimal digit). -/
def isDigitC (c : Char) : Bool :=
  '0' ≤ c && c ≤ '9'

/-- Python `\w` on the post-`unidecode` ASCII text: letters, digits, underscore. -/
def isWordC (c : Char) : Bool :=
  ('a' ≤ c && c ≤ 'z') || ('A' ≤ c && c ≤ 'Z') || isDigitC c || c == '_'

/-- Python `\s`: space, tab, newline, carriage return, vertical tab, form feed. -/
def isSpaceC (c : Char) : Bool :=
  c == ' ' || c == '\t' || c == '\n' || c == '\r' || c == '\x0b' || c == '\x0c'

/-- Python `str.lower` restricted to ASCII plus the accented Latin letters
that appear in Portuguese catalog text. -/
def pyLowerChar (c : Char) : Char :=
  if 'A' ≤ c && c ≤ 'Z' then Char.ofNat (c.toNat + 32)
  else match c with
    | 'Á' => 'á' | 'À' => 'à' | 'Â' => 'â' | 'Ã' => 'ã' | 'Ä' => 'ä'
    | 'É' => 'é' | 'È' => 'è' | 'Ê' => 'ê'
    | 'Í' => 'í' | 'Ó' => 'ó' | 'Ô' => 'ô' | 'Õ' => 'õ'
    | 'Ú' => 'ú' | 'Ü' => 'ü' | 'Ç' => 'ç'
    | _ => c

/-- Model of `unidecode` restricted to the lower-case accented Latin letters of
Portuguese text (the source lower-cases before calling `unidecode`, so only
lower-case letters reach it); every other character is left unchanged. -/
def deaccentChar (c : Char) : Char :=
  match c with
  | 'á' => 'a' | 'à' => 'a' | 'â' => 'a' | 'ã' => 'a' | 'ä' => 'a'
  | 'é' => 'e' | 'è' => 'e' | 'ê' => 'e'
  | 'í' => 'i' | 'ó' => 'o' | 'ô' => 'o' | 'õ' => 'o'
  | 'ú' => 'u' | 'ü' => 'u' | 'ç' => 'c'
  | _ => c

/-- `unidecode(str(name).lower())` from `utils.py` (both operations are
per-character on the characters involved). -/
def normalizeName (s : String) : List Char :=
  s.data.map (fun c => deaccentChar (pyLowerChar c))

/-- Python `str.split()` word count: number of maximal runs of
non-whitespace characters. -/
def countWordsAux : Bool → List Char → Nat
  | _, [] => 0
  | inWord, c :: rest =>
    if isSpaceC c then countWordsAux false rest
    else if inWord then countWordsAux true rest
    else 1 + countWordsAux true rest

/-- `len(clean_name.split())`. -/
def countWords (cs : List Char) : Nat :=
  countWordsAux false cs

/-- `\b` to the right of a token ending in a word character: the rest of the
input starts with a non-word character or is empty. -/
def boundaryAfter (rest : List Char) : Bool :=
  match rest with
  | [] => true
  | c :: _ => !(isWordC c)

/-- `\b` to the left of a token starting with a word character: the previous
character is absent (start of string) or is a non-word character. -/
def boundaryBefore (prev : Option Char) : Bool :=
  match prev with
  | none => true
  | some p => !(isWordC p)

/-- Does some token of `toks`, followed by a word boundary, start at the head
of `cs`?  (The boundary before the token is checked by the caller.) -/
def tokenHere (toks : List (List Char)) (cs : List Char) : Bool :=
  toks.any (fun t => t.isPrefixOf cs && boundaryAfter (cs.drop t.length))

/-- Leftmost search for `\b(tok1|tok2|...)\b` (all tokens start and end with
word characters): scan every start position, tracking the previous character
for the left boundary. -/
def scanWholeWord (toks : List (List Char)) : Option Char → List Char → Bool
  | _, [] => false
  | prev, c :: rest =>
    (boundaryBefore prev && tokenHere toks (c :: rest)) ||
      scanWholeWord toks (some c) rest

/-- Search for `\d+(u1|u2)\b` (units made of word characters): some position
starts a digit run immediately followed by one of the units and a word
boundary.  Shortening the greedy digit run never helps (the unit would then
have to match a digit), so only the maximal run is tried at each position. -/
def scanNumUnit (units : List (List Char)) : List Char → Bool
  | [] => false
  | c :: rest =>
    (isDigitC c && tokenHere units ((c :: rest).dropWhile isDigitC)) ||
      scanNumUnit units rest

/-- The explicit-unit tokens of rule 1 of `infer_unit_type`. -/
def unitTokens : List (List Char) :=
  [['u','n'], ['u','n','i','d'], ['u','n','i','d','a','d','e'],
   ['p','c','t'], ['p','a','c','o','t','e'], ['c','x'],
   ['c','a','i','x','a'], ['f','r','a','s','c','o'],
   ['g','a','l','a','o']]

/-- The volume units of rule 2: `ml`, `l`. -/
def volumeUnits : List (List Char) := [['m','l'], ['l']]

/-- The weight units of rules 3 and 4: `kg`, `g`. -/
def weightUnits : List (List Char) := [['k','g'], ['g']]

/-- `infer_unit_type` from `src/utils.py`, including the final branch exactly
as written there: `if not (re.search(r'\b(kg|g)\b', clean_name)) or
len(words) >= 4: return "UNI"` followed by `return "KG"`. -/
def infer_unit_type (name : String) : String :=
  let clean_name := normalizeName name
  let words := countWords clean_name
  if scanWholeWord unitTokens none clean_name then "UNI"
  else if scanNumUnit volumeUnits clean_name then "UNI"
  else if scanNumUnit weightUnits clean_name then "UNI"
  else if scanWholeWord weightUnits none clean_name then "KG"
  else if !(scanWholeWord weightUnits none clean_name) || words ≥ 4 then "UNI"
  else "KG"

/-- Numeric value of a list of decimal digit characters (most significant
first).  Non-digit characters contribute their (clamped) code offset; all
callers pass genuine digit runs. -/
def digitsToNat (ds : List Char) : Nat :=
  ds.foldl (fun a c => 10 * a + (c.toNat - 48)) 0

/-- Value of a captured numeral such as `5`, `1.25` or `1,25`:
`float(value.replace(',', '.'))` in the source.  The capture is an
integer digit run optionally followed by a decimal separator and a
fractional digit run. -/
def numVal (cs : List Char) : ℚ :=
  let intPart := cs.takeWhile isDigitC
  let rest := cs.dropWhile isDigitC
  let fracPart := rest.drop 1
  (digitsToNat intPart : ℚ) + (digitsToNat fracPart : ℚ) / (10 : ℚ) ^ fracPart.length

/-- Python `round(x, k)` on the rational model: round `x * 10^k` to the
nearest integer.  (Ties never occur in the developments below, so the
tie-breaking convention is immaterial.) -/
def roundTo (k : Nat) (q : ℚ) : ℚ :=
  ((round (q * (10 : ℚ) ^ k) : ℤ) : ℚ) / (10 : ℚ) ^ k

/-- `(kg|g)\b` at the head of the input: try `kg` first, then `g`, each
followed by a word boundary.  Returns the matched unit. -/
def weightUnitHere (cs : List Char) : Option (List Char) :=
  match cs with
  | 'k' :: 'g' :: rest => if boundaryAfter rest then some ['k','g'] else none
  | 'g' :: rest => if boundaryAfter rest then some ['g'] else none
  | _ => none

/-- One attempt of `(\d+(?:[\.,]\d+)?)\s*(kg|g)\b` anchored at the head of
`cs` (which must start with a digit): greedy digits, then the fractional
part if it lets the rest match, otherwise without it.  Returns the captured
numeral and the matched unit. -/
def weightHere (cs : List Char) : Option (List Char × List Char) :=
  let ds := cs.takeWhile isDigitC
  let rest := cs.dropWhile isDigitC
  if ds.isEmpty then none
  else
    let noFrac : Option (List Char × List Char) :=
      (weightUnitHere (rest.dropWhile isSpaceC)).map (fun u => (ds, u))
    match rest with
    | c :: r2 =>
      if c == '.' || c == ',' then
        let fs := r2.takeWhile isDigitC
        if fs.isEmpty then noFrac
        else
          match weightUnitHere ((r2.dropWhile isDigitC).dropWhile isSpaceC) with
          | some u => some (ds ++ c :: fs, u)
          | none => noFrac
      else noFrac
    | [] => noFrac

/-- Leftmost search for the weight pattern
`(?<!\d)(\d+(?:[\.,]\d+)?)\s*(kg|g)\b`: at each start position the negative
lookbehind requires the previous character not to be a digit. -/
def weightScan : Option Char → List Char → Option (List Char × List Char)
  | _, [] => none
  | prev, c :: rest =>
    match (if prev.all (fun p => !isDigitC p) then weightHere (c :: rest) else none) with
    | some r => some r
    | none => weightScan (some c) rest

/-- `(cm|m)` at the head of the input (no trailing boundary in the source
pattern): `cm` first, then `m`.  Returns the rest of the input. -/
def dimUnitHere (cs : List Char) : Option (List Char) :=
  match cs with
  | 'c' :: 'm' :: rest => some rest
  | 'm' :: rest => some rest
  | _ => none

/-- The dimension separator class `[/xX]`. -/
def isSepC (c : Char) : Bool :=
  c == '/' || c == 'x' || c == 'X'

/-- Alternatives for `(\d+(?:[\.,]\d+)?)` anchored at the head of `cs`, in
Python's backtracking order: with the greedy fractional part first (when one
is present), then without it.  Each alternative is the captured numeral and
the remaining input. -/
def numAlternatives (cs : List Char) : List (List Char × List Char) :=
  let ds := cs.takeWhile isDigitC
  let rest := cs.dropWhile isDigitC
  if ds.isEmpty then []
  else
    match rest with
    | c :: r2 =>
      if c == '.' || c == ',' then
        let fs := r2.takeWhile isDigitC
        if fs.isEmpty then [(ds, rest)]
        else [(ds ++ c :: fs, r2.dropWhile isDigitC), (ds, rest)]
      else [(ds, rest)]
    | [] => [(ds, rest)]

/-- Alternatives for one `(\d+(?:[\.,]\d+)?)\s*(cm|m)` segment anchored at
the head of `cs`: the numeral capture and the input remaining after the
unit, in backtracking order. -/
def segAlternatives (cs : List Char) : List (List Char × List Char) :=
  (numAlternatives cs).filterMap
    (fun p => (dimUnitHere (p.2.dropWhile isSpaceC)).map (fun r => (p.1, r)))

/-- `\s*[/xX]\s*` anchored at the head of `cs`. -/
def sepHere (cs : List Char) : Option (List Char) :=
  match cs.dropWhile isSpaceC with
  | c :: rest => if isSepC c then some (rest.dropWhile isSpaceC) else none
  | [] => none

/-- The optional third segment `(?:\s*[/xX]\s*(\d+(?:[\.,]\d+)?)\s*(cm|m))?`
anchored after the second unit: greedy, but its failure leaves the overall
match intact. -/
def thirdSegment (cs : List Char) : Option (List Char) :=
  match sepHere cs with
  | some r => ((segAlternatives r).head?).map (fun p => p.1)
  | none => none

/-- Full dimension pattern anchored at the head of `cs`:
`(\d+(?:[\.,]\d+)?)\s*(cm|m)\s*[/xX]\s*(\d+(?:[\.,]\d+)?)\s*(cm|m)` plus the
optional third segment.  Backtracks over the fractional-part choices of the
first two numerals (rightmost choice point first, matching Python).
Returns the three numeral captures (`none` height when the optional part is
absent); the units are captured by the source regex but never used. -/
def dimHere (cs : List Char) : Option (List Char × List Char × Option (List Char)) :=
  (segAlternatives cs).findSome? (fun p1 =>
    match sepHere p1.2 with
    | some r1 =>
      (segAlternatives r1).findSome? (fun p2 =>
        some (p1.1, p2.1, thirdSegment p2.2))
    | none => none)

/-- Leftmost search for the dimension pattern (no lookbehind). -/
def dimScan : List Char → Option (List Char × List Char × Option (List Char))
  | [] => none
  | c :: rest =>
    match dimHere (c :: rest) with
    | some r => some r
    | none => dimScan rest

/-- The dictionary returned by `measure_parser`. -/
structure Measures where
  length : Option ℚ
  width : Option ℚ
  height : Option ℚ
  weight : Option ℚ
  deriving Repr, DecidableEq

/-- `measure_parser` from `src/utils.py`: weight from the first
`(?<!\d)(\d+(?:[\.,]\d+)?)\s*(kg|g)\b` match (grams divided by 1000, result
rounded to 3 decimals) and length/width/height from the first dimension
match (face values, units ignored). -/
def measureParser (name : String) : Measures :=
  let normalized_name := normalizeName name
  let w := (weightScan none normalized_name).map (fun p =>
    roundTo 3 (if p.2 = ['g'] then numVal p.1 / 1000 else numVal p.1))
  match dimScan normalized_name with
  | some (n1, n2, n3) =>
    { length := some (numVal n1), width := some (numVal n2),
      height := n3.map numVal, weight := w }
  | none =>
    { length := none, width := none, height := none, weight := w }

/-- `price.replace(',', '.')`: a single-character replacement, hence a
per-character map. -/
def commaToDot (s : String) : String :=
  String.mk (s.data.map (fun c => if c = ',' then '.' else c))

/-- Decomposition of a decimal string into sign, integer digits and
fractional digits; `none` when the string is not a plain decimal numeral. -/
def decParts (cs : List Char) : Option (Bool × List Char × List Char) :=
  let unsigned : List Char → Option (List Char × List Char) := fun cs2 =>
    let intPart := cs2.takeWhile isDigitC
    let rest := cs2.dropWhile isDigitC
    match rest with
    | [] => if intPart.isEmpty then none else some (intPart, [])
    | '.' :: fr =>
      if fr.all isDigitC && !(intPart.isEmpty && fr.isEmpty) then some (intPart, fr)
      else none
    | _ => none
  match cs with
  | '-' :: cs2 => (unsigned cs2).map (fun p => (true, p))
  | '+' :: cs2 => (unsigned cs2).map (fun p => (false, p))
  | cs2 => (unsigned cs2).map (fun p => (false, p))

/-- Value of a decomposed decimal numeral. -/
def mkDec (ip fp : List Char) : ℚ :=
  (digitsToNat ip : ℚ) + (digitsToNat fp : ℚ) / (10 : ℚ) ^ fp.length

/-- Model of `pd.to_numeric(s, errors='coerce')` on the decimal strings the
catalog uses: an optional sign, then digits with an optional fractional
part (at least one digit overall).  Coercion failure — which pandas reports
as `NaN`, its null — is `none`. -/
def toNumeric (s : String) : Option ℚ :=
  (decParts s.data).map (fun p => (if p.1 then -1 else 1) * mkDec p.2.1 p.2.2)

/-- `price_formater` from `src/utils.py`: null in, null out; otherwise
replace `,` with `.`, coerce to a number and round to 2 decimal places
(`round` of pandas's `NaN` is `NaN`, i.e. null). -/
def price_formater (price : Option String) : Option ℚ :=
  match price with
  | none => none
  | some s => (toNumeric (commaToDot s)).map (roundTo 2)

/-- `promo_price_formater` from `src/utils.py`: null or the literal string
`"0"` in, null out; otherwise replace `,` with `.` and coerce to a number —
with no rounding step. -/
def promo_price_formater (price : Option String) : Option ℚ :=
  match price with
  | none => none
  | some s => if s = "0" then none else toNumeric (commaToDot s)

/-- `stock_formater` from `src/utils.py`: null in, null out; otherwise
`float(price)` (modelled by the same numeric coercion). -/
def stock_formater (stock : Option String) : Option ℚ :=
  match stock with
  | none => none
  | some s => toNumeric s

/-- Python `int()` on a float value: truncation toward zero. -/
def pyTrunc (q : ℚ) : ℤ :=
  if 0 ≤ q then ⌊q⌋ else ⌈q⌉

/-- Python `str()` of an integer: a minus sign for negatives, then the
decimal digits. -/
def intToString (i : ℤ) : String :=
  if i < 0 then "-" ++ String.mk (Nat.toDigits 10 i.natAbs)
  else String.mk (Nat.toDigits 10 i.toNat)

/-- `float_to_string` from `src/utils.py`: null barcode → empty list,
otherwise the one-element list `[str(int(barcode))]`. -/
def float_to_string (barcode : Option ℚ) : List String :=
  match barcode with
  | none => []
  | some q => [intToString (pyTrunc q)]

/-- `^\d{n}$`: the whole string is exactly `n` decimal digits. -/
def matchesDigits (s : String) (n : Nat) : Bool :=
  s.length == n && s.data.all isDigitC

/-- `format_to_ean` from `src/utils.py`: keep the barcode only when it fully
matches `^\d{8}$`, `^\d{12}$` or `^\d{13}$`. -/
def format_to_ean (barcode : String) : List String :=
  if matchesDigits barcode 8 then [barcode]
  else if matchesDigits barcode 12 then [barcode]
  else if matchesDigits barcode 13 then [barcode]
  else []

/-- The barcode pipeline of `ProductDataProcessor.load_and_process`:
`float_to_string` then `format_to_ean(x[0]) if x else []`. -/
def barcodePipeline (barcode : Option ℚ) : List String :=
  match float_to_string barcode with
  | [] => []
  | s :: _ => format_to_ean s

/-- Gregorian leap year. -/
def isLeapYear (y : Nat) : Bool :=
  (y % 4 == 0 && y % 100 != 0) || y % 400 == 0

/-- Days in a month of the proleptic Gregorian calendar. -/
def daysInMonth (y m : Nat) : Nat :=
  if m == 2 then (if isLeapYear y then 29 else 28)
  else if m == 4 || m == 6 || m == 9 || m == 11 then 30
  else 31

/-- Zero-pad a number below 100 to two digits, as `f"{n:02d}"` does. -/
def pad2 (n : Nat) : String :=
  if n < 10 then "0" ++ String.mk (Nat.toDigits 10 n)
  else String.mk (Nat.toDigits 10 n)

/-- Model of `datetime.fromisoformat(seg).isoformat()` on the shapes the
promotion column uses: a calendar-valid `YYYY-MM-DD` date (year at least 1),
alone or followed by a `T` or space separator and a valid `HH:MM:SS` time.
A date alone gains the midnight time `T00:00:00`; anything else is a parse
failure (`ValueError` in the source, caught by its `try`/`except`). -/
def isoParse (s : String) : Option String :=
  match s.data with
  | [y1, y2, y3, y4, '-', m1, m2, '-', d1, d2] =>
    let y := digitsToNat [y1, y2, y3, y4]
    let m := digitsToNat [m1, m2]
    let d := digitsToNat [d1, d2]
    if [y1, y2, y3, y4, m1, m2, d1, d2].all isDigitC && 1 ≤ y &&
        1 ≤ m && m ≤ 12 && 1 ≤ d && d ≤ daysInMonth y m then
      some (String.mk [y1, y2, y3, y4, '-', m1, m2, '-', d1, d2] ++ "T00:00:00")
    else none
  | [y1, y2, y3, y4, '-', m1, m2, '-', d1, d2, t, h1, h2, ':', n1, n2, ':', s1, s2] =>
    let y := digitsToNat [y1, y2, y3, y4]
    let m := digitsToNat [m1, m2]
    let d := digitsToNat [d1, d2]
    if [y1, y2, y3, y4, m1, m2, d1, d2, h1, h2, n1, n2, s1, s2].all isDigitC &&
        (t == 'T' || t == ' ') && 1 ≤ y && 1 ≤ m && m ≤ 12 && 1 ≤ d &&
        d ≤ daysInMonth y m && digitsToNat [h1, h2] < 24 &&
        digitsToNat [n1, n2] < 60 && digitsToNat [s1, s2] < 60 then
      some (String.mk [y1, y2, y3, y4, '-', m1, m2, '-', d1, d2, 'T',
        h1, h2, ':', n1, n2, ':', s1, s2])
    else none
  | _ => none

/-- Python `str.upper` restricted to ASCII (accented letters would fail the
`[A-Z]` class either way). -/
def pyUpperChar (c : Char) : Char :=
  if 'a' ≤ c && c ≤ 'z' then Char.ofNat (c.toNat - 32) else c

/-- The `months_pt` table of `ptbr_to_iso_format`. -/
def monthsPt : List (String × String) :=
  [("JAN", "01"), ("FEV", "02"), ("MAR", "03"), ("ABR", "04"),
   ("MAI", "05"), ("JUN", "06"), ("JUL", "07"), ("AGO", "08"),
   ("SET", "09"), ("OUT", "10"), ("NOV", "11"), ("DEZ", "12")]

/-- `\d{1,2}` then `-`, greedy with backtracking: two digits if the dash
follows them, else one digit followed by the dash.  Returns the day digits
and the input after the dash. -/
def dayDash (cs : List Char) : Option (List Char × List Char) :=
  match cs with
  | a :: b :: '-' :: rest =>
    if isDigitC a && isDigitC b then some ([a, b], rest) else none
  | a :: '-' :: rest =>
    if isDigitC a then some ([a], rest) else none
  | _ => none

/-- `ptbr_to_iso_format` from `src/utils.py`: `re.match` (a prefix match,
trailing text ignored) of `(\d{1,2})-([A-Z]{3})-(\d{2,4})` against the
upper-cased input, month abbreviation looked up in `months_pt`, a 2-digit
year prefixed with `20`, the day zero-padded, and no calendar validation:
`f"{year}-{month}-{int(day):02d}T00:00:00"`. -/
def ptbr_to_iso_format (date_str : String) : Option String :=
  let cs := date_str.data.map pyUpperChar
  match dayDash cs with
  | none => none
  | some (day, rest) =>
    match rest with
    | a :: b :: c :: '-' :: rest2 =>
      if ('A' ≤ a && a ≤ 'Z') && ('A' ≤ b && b ≤ 'Z') && ('A' ≤ c && c ≤ 'Z') then
        let yearDigits := (rest2.takeWhile isDigitC).take 4
        if yearDigits.length < 2 then none
        else
          match (monthsPt.lookup (String.mk [a, b, c])) with
          | none => none
          | some month =>
            let year := if yearDigits.length == 2 then
                String.mk ('2' :: '0' :: yearDigits)
              else String.mk yearDigits
            some (year ++ "-" ++ month ++ "-" ++ pad2 (digitsToNat day) ++ "T00:00:00")
      else none
    | _ => none

def pySplitAux (sep : Char) : List Char → List Char → List String
  | acc, [] => [String.mk acc.reverse]
  | acc, c :: rest =>
    if c = sep then String.mk acc.reverse :: pySplitAux sep [] rest
    else pySplitAux sep (c :: acc) rest

/-- Python `str.split(sep)` for a one-character separator: the segments
between occurrences of `sep`, empty segments kept. -/
def pySplit (sep : Char) (s : String) : List String :=
  pySplitAux sep [] s.data

/-- `process_promo_dates` from `src/utils.py`: null (or a literal `nan`
string) → both null; a string containing `/` → split on `/`, the first two
segments independently ISO-parsed, each failure yielding null for its side
only; any other string → null start and `ptbr_to_iso_format` end. -/
def process_promo_dates (date : Option String) : Option String × Option String :=
  match date with
  | none => (none, none)
  | some s =>
    if (s.data.map pyLowerChar) = "nan".data then (none, none)
    else if s.data.any (fun c => c = '/') then
      let segs := pySplit '/' s
      (isoParse (segs.getD 0 ""), isoParse (segs.getD 1 ""))
    else (none, ptbr_to_iso_format s)

/-- The loop body of `ProductDataProcessor.create_batches`:
`for i in range(0, len(df), 1000)` emits the slice `df[i:i+1000]` with
sequence number `i//1000 + 1`.  Rendered with structural recursion on a
fuel bound; every iteration consumes 1000 > 0 records, so any fuel of at
least the record count reproduces the loop exactly. -/
def createBatchesFuel : Nat → Nat → List α → List (Nat × List α)
  | 0, _, _ => []
  | _, _, [] => []
  | fuel + 1, seq, l@(_ :: _) =>
    (seq, l.take 1000) :: createBatchesFuel fuel (seq + 1) (l.drop 1000)

/-- `ProductDataProcessor.create_batches`: partition the processed records
into slices of 1000, the slice starting at offset `i` numbered
`i//1000 + 1`. -/
def create_batches (l : List α) : List (Nat × List α) :=
  createBatchesFuel l.length 1 l


/-- The single-date shapes named by the specification: `DD-MMM-YY` or
`DD-MMM-YYYY` with a Portuguese month abbreviation, case-insensitive.
Stated from the specification's words, to compare with what the code's
prefix regex actually accepts. -/
def specPtbrShape (s : String) : Bool :=
  match s.data.map pyUpperChar with
  | [d1, d2, '-', a, b, c, '-', y1, y2] =>
    [d1, d2, y1, y2].all isDigitC && (monthsPt.lookup (String.mk [a, b, c])).isSome
  | [d1, d2, '-', a, b, c, '-', y1, y2, y3, y4] =>
    [d1, d2, y1, y2, y3, y4].all isDigitC &&
      (monthsPt.lookup (String.mk [a, b, c])).isSome
  | _ => false

/-- Closed form of the batching loop: with fuel at least the record count
it produces one numbered slice per chunk offset. -/
theorem createBatchesFuel_eq {α : Type} :
    ∀ (fuel : Nat) (l : List α) (seq : Nat), l.length ≤ fuel →
      createBatchesFuel fuel seq l =
        (List.range ((l.length + 999) / 1000)).map
          (fun k => (seq + k, (l.drop (1000 * k)).take 1000)) := by
  intro fuel
  induction fuel with
  | zero =>
    intro l seq h
    have hl : l = [] := List.length_eq_zero.mp (Nat.le_zero.mp h)
    subst hl
    simp [createBatchesFuel]
  | succ fuel ih =>
    intro l seq h
    match l with
    | [] => simp [createBatchesFuel]
    | c :: t =>
      have hrec := ih ((c :: t).drop 1000) (seq + 1)
        (by simp only [List.length_drop, List.length_cons] at h ⊢; omega)
      have hm : (((c :: t).drop 1000).length + 999) / 1000 + 1 =
          ((c :: t).length + 999) / 1000 := by
        simp only [List.length_drop, List.length_cons]
        omega
      have hfun : ∀ k : Nat,
          (seq + 1 + k, (((c :: t).drop 1000).drop (1000 * k)).take 1000) =
            (seq + Nat.succ k, ((c :: t).drop (1000 * Nat.succ k)).take 1000) := by
        intro k
        rw [List.drop_drop]
        have h1 : seq + 1 + k = seq + Nat.succ k := by omega
        have h2 : 1000 + 1000 * k = 1000 * Nat.succ k := by omega
        rw [h1, h2]
      calc createBatchesFuel (fuel + 1) seq (c :: t)
          = (seq, (c :: t).take 1000) ::
              createBatchesFuel fuel (seq + 1) ((c :: t).drop 1000) := rfl
        _ = (seq, (c :: t).take 1000) ::
              (List.range ((((c :: t).drop 1000).length + 999) / 1000)).map
                (fun k => (seq + 1 + k, (((c :: t).drop 1000).drop (1000 * k)).take 1000)) := by
            rw [hrec]
        _ = (List.range (((c :: t).length + 999) / 1000)).map
              (fun k => (seq + k, ((c :: t).drop (1000 * k)).take 1000)) := by
            rw [← hm, List.range_succ_eq_map, List.map_cons, List.map_map]
            refine congrArg₂ List.cons (by simp) ?_
            exact List.map_congr_left (fun k _ => hfun k)

/-- Concatenating the slices of the batching loop restores the input. -/
theorem createBatchesFuel_flatten {α : Type} :
    ∀ (fuel : Nat) (l : List α) (seq : Nat), l.length ≤ fuel →
      ((createBatchesFuel fuel seq l).map Prod.snd).flatten = l := by
  intro fuel
  induction fuel with
  | zero =>
    intro l seq h
    have hl : l = [] := List.length_eq_zero.mp (Nat.le_zero.mp h)
    subst hl
    rfl
  | succ fuel ih =>
    intro l seq h
    match l with
    | [] => rfl
    | c :: t =>
      have hrec := ih ((c :: t).drop 1000) (seq + 1)
        (by simp only [List.length_drop, List.length_cons] at h ⊢; omega)
      calc ((createBatchesFuel (fuel + 1) seq (c :: t)).map Prod.snd).flatten
          = (c :: t).take 1000 ++
              ((createBatchesFuel fuel (seq + 1) ((c :: t).drop 1000)).map Prod.snd).flatten := rfl
        _ = (c :: t).take 1000 ++ (c :: t).drop 1000 := by rw [hrec]
        _ = c :: t := List.take_append_drop 1000 (c :: t)

/-- C6: the batcher partitions the records into contiguous groups of 1000 in
source order (last group possibly smaller), the group at offset `i` getting
sequence number `i/1000 + 1`; 2500 records give batches of sizes
1000, 1000, 500 numbered 1, 2, 3, and concatenating the batches restores
the input. -/
theorem create_batches_C6 (l : List Nat) :
    create_batches l =
      (List.range ((l.length + 999) / 1000)).map
        (fun k => (k + 1, (l.drop (1000 * k)).take 1000)) ∧
    ((create_batches l).map Prod.snd).flatten = l ∧
    (create_batches (List.range 2500)).map (fun b => (b.1, b.2.length)) =
      [(1, 1000), (2, 1000), (3, 500)] := by
  refine ⟨?_, ?_, ?_⟩
  · rw [show create_batches l = createBatchesFuel l.length 1 l from rfl,
      createBatchesFuel_eq l.length l 1 le_rfl]
    exact List.map_congr_left (fun k _ => by rw [Nat.add_comm])
  · exact createBatchesFuel_flatten l.length l 1 le_rfl
  · rw [show create_batches (List.range 2500) =
        createBatchesFuel (List.range 2500).length 1 (List.range 2500) from rfl,
      createBatchesFuel_eq (List.range 2500).length (List.range 2500) 1 le_rfl]
    simp only [List.map_map, Function.comp_def, List.length_take, List.length_drop,
      List.length_range]
    decide

/-- Evaluation rule for the rounding model: if `n ≤ q·10^k + 1/2 < n + 1`
then `roundTo k q = n / 10^k`. -/
theorem roundTo_eval (k : Nat) (q : ℚ) (n : ℤ)
    (h1 : (n : ℚ) ≤ q * (10 : ℚ) ^ k + 1 / 2)
    (h2 : q * (10 : ℚ) ^ k + 1 / 2 < n + 1) :
    roundTo k q = (n : ℚ) / (10 : ℚ) ^ k := by
  rw [roundTo, round_eq, Int.floor_eq_iff.mpr ⟨h1, h2⟩]

/-- Nonnegative rationals round to nonnegative rationals. -/
theorem roundTo_nonneg (k : Nat) (q : ℚ) (h : 0 ≤ q) : 0 ≤ roundTo k q := by
  rw [roundTo, round_eq]
  have h10 : (0 : ℚ) < (10 : ℚ) ^ k := by positivity
  have hx : (0 : ℚ) ≤ q * (10 : ℚ) ^ k + 1 / 2 := by positivity
  have hfl : (0 : ℤ) ≤ ⌊q * (10 : ℚ) ^ k + 1 / 2⌋ := by
    exact Int.floor_nonneg.mpr hx
  positivity

/-- Numeral values are nonnegative. -/
theorem numVal_nonneg (cs : List Char) : 0 ≤ numVal cs := by
  rw [numVal]
  positivity

/-- A numeral consisting only of digits has the value of its digit string. -/
theorem numVal_ofDigits (cs : List Char) (h : cs.all isDigitC = true) :
    numVal cs = (digitsToNat cs : ℚ) := by
  have h1 : cs.takeWhile isDigitC = cs := by
    rw [List.takeWhile_eq_self_iff]
    intro a ha
    exact List.all_eq_true.mp h a ha
  have h2 : cs.dropWhile isDigitC = [] := by
    rw [List.dropWhile_eq_nil_iff]
    intro a ha
    exact List.all_eq_true.mp h a ha
  rw [numVal, h1, h2]
  simp [digitsToNat]

/-- Truncation evaluation on nonnegative values. -/
theorem pyTrunc_eval (q : ℚ) (n : ℤ) (h0 : 0 ≤ q) (h1 : (n : ℚ) ≤ q)
    (h2 : q < n + 1) : pyTrunc q = n := by
  rw [pyTrunc, if_pos h0]
  exact Int.floor_eq_iff.mpr ⟨h1, h2⟩

/-- `format_to_ean` keeps a barcode exactly when it consists of exactly
8, 12 or 13 decimal digits. -/
theorem format_to_ean_eq (s : String) :
    format_to_ean s =
      if (s.length = 8 ∨ s.length = 12 ∨ s.length = 13) ∧ s.data.all isDigitC = true
      then [s] else [] := by
  simp only [format_to_ean, matchesDigits, Bool.and_eq_true, beq_iff_eq]
  split_ifs with h1 h2 h3 h4 <;> first | rfl | (exfalso; tauto)

/-- C4: a null barcode yields the empty list; otherwise the value is
truncated to an integer and stringified, and the result is the one-element
list of that digit string exactly when it consists of 8, 12 or 13 decimal
digits (shown on a 13-digit, a too-short and a fractional barcode). -/
theorem barcode_C4 :
    barcodePipeline none = [] ∧
    (∀ q : ℚ,
      barcodePipeline (some q) =
        if ((intToString (pyTrunc q)).length = 8 ∨ (intToString (pyTrunc q)).length = 12 ∨
            (intToString (pyTrunc q)).length = 13) ∧
            (intToString (pyTrunc q)).data.all isDigitC = true
        then [intToString (pyTrunc q)] else []) ∧
    barcodePipeline (some (7891234567895 : ℚ)) = ["7891234567895"] ∧
    barcodePipeline (some (123456 : ℚ)) = [] ∧
    barcodePipeline (some ((123456789 : ℚ) / 10)) = ["12345678"] := by
  have htr : pyTrunc ((123456789 : ℚ) / 10) = 12345678 := by
    apply pyTrunc_eval <;> norm_num
  refine ⟨rfl, ?_, by decide, by decide, ?_⟩
  · intro q
    rw [show barcodePipeline (some q) = format_to_ean (intToString (pyTrunc q)) from rfl,
      format_to_ean_eq]
  · rw [show barcodePipeline (some ((123456789 : ℚ) / 10)) =
      format_to_ean (intToString (pyTrunc ((123456789 : ℚ) / 10))) from rfl, htr]
    decide

/-- C1: the unit-type rules are evaluated in order with the first match
winning — an explicit unit token gives `UNI`, else a number followed by
`ml`/`l` gives `UNI`, else a number followed by `kg`/`g` gives `UNI`, else a
standalone whole-word `kg`/`g` gives `KG`; in particular
`"Arroz 5kg"` is `UNI` and `"Queijo kg"` is `KG`. -/
theorem infer_unit_type_C1 :
    (∀ name : String,
      (scanWholeWord unitTokens none (normalizeName name) = true →
        infer_unit_type name = "UNI") ∧
      (scanWholeWord unitTokens none (normalizeName name) = false →
        scanNumUnit volumeUnits (normalizeName name) = true →
        infer_unit_type name = "UNI") ∧
      (scanWholeWord unitTokens none (normalizeName name) = false →
        scanNumUnit volumeUnits (normalizeName name) = false →
        scanNumUnit weightUnits (normalizeName name) = true →
        infer_unit_type name = "UNI") ∧
      (scanWholeWord unitTokens none (normalizeName name) = false →
        scanNumUnit volumeUnits (normalizeName name) = false →
        scanNumUnit weightUnits (normalizeName name) = false →
        scanWholeWord weightUnits none (normalizeName name) = true →
        infer_unit_type name = "KG")) ∧
    infer_unit_type "Arroz 5kg" = "UNI" ∧
    infer_unit_type "Queijo kg" = "KG" := by
  refine ⟨?_, by decide, by decide⟩
  intro name
  refine ⟨fun h1 => by simp [infer_unit_type, h1],
    fun h1 h2 => by simp [infer_unit_type, h1, h2],
    fun h1 h2 h3 => by simp [infer_unit_type, h1, h2, h3],
    fun h1 h2 h3 h4 => by simp [infer_unit_type, h1, h2, h3, h4]⟩

theorem infer_unit_type_C1_witness :
    infer_unit_type "Queijo kg" = "KG" :=
  (infer_unit_type_C1.1 "Queijo kg").2.2.2 (by decide) (by decide) (by decide) (by decide)

/-- C2 (code bug): the claim's rule 5 is dead in the code — after rule 4
fails, the guard `not re.search(r'\b(kg|g)\b', ...)` of the final branch is
vacuously true, so every name reaching rule 5 yields `UNI`.  The single-word
marker-free name `"Detergente"` therefore yields `UNI`, not the `KG` the
claim (and the function's own docstring) describes; `"KG"` is only ever
produced by rule 4. -/
theorem infer_unit_type_C2 :
    infer_unit_type "Detergente" = "UNI" ∧
    infer_unit_type "Sabonete em Barra Importado Premium" = "UNI" ∧
    infer_unit_type "Sal" = "UNI" ∧
    (∀ name : String, infer_unit_type name = "KG" →
      scanWholeWord weightUnits none (normalizeName name) = true) := by
  refine ⟨by decide, by decide, by decide, ?_⟩
  intro name h
  by_contra hc
  have hc' : scanWholeWord weightUnits none (normalizeName name) = false :=
    Bool.eq_false_iff.mpr hc
  rcases h1 : scanWholeWord unitTokens none (normalizeName name) <;>
    rcases h2 : scanNumUnit volumeUnits (normalizeName name) <;>
      rcases h3 : scanNumUnit weightUnits (normalizeName name) <;>
        simp [infer_unit_type, h1, h2, h3, hc'] at h

theorem infer_unit_type_C2_witness :
    scanWholeWord weightUnits none (normalizeName "Queijo kg") = true :=
  infer_unit_type_C2.2.2.2 "Queijo kg" (by decide)

/-- C3 counterexample: the promo-price normalizer does not round, so on
`"1,234"` (non-null and distinct from `"0"`) it differs from the price
normalizer, which rounds to 2 decimal places. -/
theorem promo_price_C3_counterexample :
    ("1,234" : String) ≠ "0" ∧
    promo_price_formater (some "1,234") = some (617 / 500 : ℚ) ∧
    price_formater (some "1,234") = some (123 / 100 : ℚ) ∧
    promo_price_formater (some "1,234") ≠ price_formater (some "1,234") := by
  have hp : decParts (commaToDot "1,234").data = some (false, ['1'], ['2','3','4']) := by
    decide
  have hv : mkDec ['1'] ['2','3','4'] = 617 / 500 := by
    rw [mkDec, show digitsToNat ['1'] = 1 from by decide,
      show digitsToNat ['2','3','4'] = 234 from by decide]
    norm_num
  have ht : toNumeric (commaToDot "1,234") = some (617 / 500 : ℚ) := by
    rw [toNumeric, hp]
    simp [hv]
  have hpromo : promo_price_formater (some "1,234") = some (617 / 500 : ℚ) := by
    have h0 : promo_price_formater (some "1,234") = toNumeric (commaToDot "1,234") := by
      simp [promo_price_formater]
    rw [h0, ht]
  have hprice : price_formater (some "1,234") = some (123 / 100 : ℚ) := by
    have h0 : price_formater (some "1,234") = (toNumeric (commaToDot "1,234")).map (roundTo 2) := rfl
    rw [h0, ht]
    simp only [Option.map_some']
    rw [roundTo_eval 2 (617 / 500 : ℚ) 123 (by norm_num) (by norm_num)]
    norm_num
  refine ⟨by decide, hpromo, hprice, ?_⟩
  rw [hpromo, hprice]
  intro h
  have h2 := Option.some.inj h
  norm_num at h2

/-- C3 (amended): the promo-price normalizer equals the price normalizer
except that the literal string `"0"` (like null) yields null and that no
2-decimal rounding is applied — the two agree exactly on inputs whose
parsed value is unchanged by that rounding. -/
theorem promo_price_C3_amended :
    promo_price_formater none = none ∧
    promo_price_formater (some "0") = none ∧
    (∀ s : String, s ≠ "0" →
      promo_price_formater (some s) = toNumeric (commaToDot s)) ∧
    (∀ s : String,
      price_formater (some s) = (toNumeric (commaToDot s)).map (roundTo 2)) ∧
    (∀ (s : String) (q : ℚ), s ≠ "0" → toNumeric (commaToDot s) = some q →
      roundTo 2 q = q →
      promo_price_formater (some s) = price_formater (some s)) := by
  refine ⟨rfl, by simp [promo_price_formater], ?_, fun s => rfl, ?_⟩
  · intro s h
    simp [promo_price_formater, h]
  · intro s q hs hq hr
    have h1 : promo_price_formater (some s) = some q := by
      simp [promo_price_formater, hs, hq]
    have h2 : price_formater (some s) = some (roundTo 2 q) := by
      rw [show price_formater (some s) = (toNumeric (commaToDot s)).map (roundTo 2) from rfl,
        hq, Option.map_some']
    rw [h1, h2, hr]

theorem promo_price_C3_witness :
    promo_price_formater (some "12,5") = price_formater (some "12,5") := by
  refine promo_price_C3_amended.2.2.2.2 "12,5" (25 / 2 : ℚ) (by decide) ?_ ?_
  · have hp : decParts (commaToDot "12,5").data = some (false, ['1','2'], ['5']) := by
      decide
    rw [toNumeric, hp]
    simp only [Option.map_some']
    simp [mkDec, show digitsToNat ['1','2'] = 12 from by decide,
      show digitsToNat ['5'] = 5 from by decide]
    norm_num
  · rw [roundTo_eval 2 (25 / 2 : ℚ) 1250 (by norm_num) (by norm_num)]
    norm_num

/-- C9: the price normalizer is total — null in, null out; otherwise the
comma becomes a dot, the string is coerced and rounded to 2 decimals, and a
coercion failure yields null (pandas's `NaN`) rather than an error;
`"12,5"` gives 12.50 and `"abc"` gives null. -/
theorem price_formater_C9 :
    price_formater none = none ∧
    (∀ s : String,
      price_formater (some s) = (toNumeric (commaToDot s)).map (roundTo 2)) ∧
    (∀ s : String, toNumeric (commaToDot s) = none → price_formater (some s) = none) ∧
    price_formater (some "12,5") = some (25 / 2 : ℚ) ∧
    price_formater (some "abc") = none := by
  have hn : toNumeric (commaToDot "12,5") = some (25 / 2 : ℚ) := by
    have hp : decParts (commaToDot "12,5").data = some (false, ['1','2'], ['5']) := by
      decide
    rw [toNumeric, hp]
    simp only [Option.map_some']
    simp [mkDec, show digitsToNat ['1','2'] = 12 from by decide,
      show digitsToNat ['5'] = 5 from by decide]
    norm_num
  refine ⟨rfl, fun s => rfl, ?_, ?_, ?_⟩
  · intro s h
    rw [show price_formater (some s) = (toNumeric (commaToDot s)).map (roundTo 2) from rfl,
      h, Option.map_none']
  · rw [show price_formater (some "12,5") = (toNumeric (commaToDot "12,5")).map (roundTo 2) from rfl,
      hn, Option.map_some', roundTo_eval 2 (25 / 2 : ℚ) 1250 (by norm_num) (by norm_num)]
    norm_num
  · rw [show price_formater (some "abc") = (toNumeric (commaToDot "abc")).map (roundTo 2) from rfl,
      show toNumeric (commaToDot "abc") = none from by decide, Option.map_none']

theorem price_formater_C9_witness :
    price_formater (some "abc") = none :=
  price_formater_C9.2.2.1 "abc" (by decide)

/-- C5 counterexample: `"31-MAR-202"` is neither `DD-MMM-YY` nor
`DD-MMM-YYYY` (its year has 3 digits), so the claim requires both outputs to
be null on it, yet the parser accepts it (the regex year group is `\d{2,4}`)
and emits the 3-digit year verbatim. -/
theorem promo_dates_C5_counterexample :
    specPtbrShape "31-MAR-202" = false ∧
    "31-MAR-202".data.any (fun c => c = '/') = false ∧
    process_promo_dates (some "31-MAR-202") = (none, some "202-03-31T00:00:00") ∧
    process_promo_dates (some "31-MAR-202") ≠ (none, none) := by
  refine ⟨by decide, by decide, by decide, by decide⟩

/-- C5 (amended): null (or a literal `nan` string) yields both nulls; a
string containing `/` is split on `/` and its first two segments are parsed
independently as ISO timestamps, a failure on either side nulling only that
side; any other string yields a null start and an end date parsed by a
prefix match of `day(1-2 digits)-month(3 letters)-year(2-4 digits)` — a
2-digit year read as `20YY`, a 3- or 4-digit year taken verbatim, trailing
text ignored and no calendar validation — with both outputs null when the
pattern or the month fails; the embedding is a total function, so no input
raises. -/
theorem process_promo_dates_C5 :
    process_promo_dates none = (none, none) ∧
    (∀ s : String, s.data.map pyLowerChar ≠ "nan".data →
      s.data.any (fun c => c = '/') = true →
      process_promo_dates (some s) =
        (isoParse ((pySplit '/' s).getD 0 ""), isoParse ((pySplit '/' s).getD 1 ""))) ∧
    (∀ s : String, s.data.map pyLowerChar ≠ "nan".data →
      s.data.any (fun c => c = '/') = false →
      process_promo_dates (some s) = (none, ptbr_to_iso_format s)) ∧
    process_promo_dates (some "31-MAR-24") = (none, some "2024-03-31T00:00:00") ∧
    process_promo_dates (some "2024-03-01/2024-03-31") =
      (some "2024-03-01T00:00:00", some "2024-03-31T00:00:00") ∧
    process_promo_dates (some "2024-03-01/bogus") = (some "2024-03-01T00:00:00", none) ∧
    process_promo_dates (some "bogus/2024-03-31") = (none, some "2024-03-31T00:00:00") ∧
    process_promo_dates (some "31-XYZ-24") = (none, none) ∧
    process_promo_dates (some "MAR-24") = (none, none) := by
  refine ⟨rfl, ?_, ?_, by decide, by decide, by decide, by decide, by decide, by decide⟩
  · intro s h1 h2
    simp [process_promo_dates, h1, h2]
  · intro s h1 h2
    simp [process_promo_dates, h1, h2]

theorem process_promo_dates_C5_witness :
    process_promo_dates (some "2024-03-01/2024-03-31") =
      (isoParse ((pySplit '/' "2024-03-01/2024-03-31").getD 0 ""),
        isoParse ((pySplit '/' "2024-03-01/2024-03-31").getD 1 "")) ∧
    process_promo_dates (some "31-MAR-24") = (none, ptbr_to_iso_format "31-MAR-24") :=
  ⟨process_promo_dates_C5.2.1 "2024-03-01/2024-03-31" (by decide) (by decide),
    process_promo_dates_C5.2.2.1 "31-MAR-24" (by decide) (by decide)⟩

/-- C7: the weight is taken from the first match of the lookbehind-guarded
number-plus-`kg`/`g` pattern, grams are divided by 1000 and the result is
rounded to 3 decimals; `"Arroz 5kg"` gives 5.0, `"Sabonete 90g"` gives
0.09, and a name without the pattern gives null. -/
theorem measure_weight_C7 :
    (∀ name : String, weightScan none (normalizeName name) = none →
      (measureParser name).weight = none) ∧
    (∀ (name : String) (nc u : List Char),
      weightScan none (normalizeName name) = some (nc, u) →
      (measureParser name).weight =
        some (roundTo 3 (if u = ['g'] then numVal nc / 1000 else numVal nc))) ∧
    (measureParser "Arroz 5kg").weight = some 5 ∧
    (measureParser "Sabonete 90g").weight = some (9 / 100 : ℚ) ∧
    (measureParser "Detergente").weight = none := by
  have hmap : ∀ (name : String) (nc u : List Char),
      weightScan none (normalizeName name) = some (nc, u) →
      (measureParser name).weight =
        some (roundTo 3 (if u = ['g'] then numVal nc / 1000 else numVal nc)) := by
    intro name nc u h
    rcases hd : dimScan (normalizeName name) with _ | ⟨n1, n2, n3⟩ <;>
      simp [measureParser, h, hd]
  refine ⟨?_, hmap, ?_, ?_, ?_⟩
  · intro name h
    rcases hd : dimScan (normalizeName name) with _ | ⟨n1, n2, n3⟩ <;>
      simp [measureParser, h, hd]
  · rw [hmap "Arroz 5kg" ['5'] ['k','g'] (by decide),
      if_neg (by decide), numVal_ofDigits ['5'] (by decide),
      show digitsToNat ['5'] = 5 from by decide,
      roundTo_eval 3 ((5 : ℕ) : ℚ) 5000 (by norm_num) (by norm_num)]
    norm_num
  · rw [hmap "Sabonete 90g" ['9','0'] ['g'] (by decide),
      if_pos rfl, numVal_ofDigits ['9','0'] (by decide),
      show digitsToNat ['9','0'] = 90 from by decide,
      roundTo_eval 3 (((90 : ℕ) : ℚ) / 1000) 90 (by norm_num) (by norm_num)]
    norm_num
  · rcases hd : dimScan (normalizeName "Detergente") with _ | ⟨n1, n2, n3⟩ <;>
      simp [measureParser, show weightScan none (normalizeName "Detergente") = none from by decide, hd]

theorem measure_weight_C7_witness :
    (measureParser "Sabonete 90g").weight =
      some (roundTo 3 (if (['g'] : List Char) = ['g'] then numVal ['9','0'] / 1000
        else numVal ['9','0'])) :=
  measure_weight_C7.2.1 "Sabonete 90g" ['9','0'] ['g'] (by decide)

/-- Value of an all-digit numeral as a rational literal, for the concrete
dimension examples. -/
theorem numVal_digits_eq (cs : List Char) (n : ℕ) (h : cs.all isDigitC = true)
    (hn : digitsToNat cs = n) : numVal cs = (n : ℚ) := by
  rw [numVal_ofDigits cs h, hn]

/-- C8: length and width come from the first
number-unit-separator-number-unit match with units `cm`/`m` and separators
`/`, `x`, `X`; height is filled only when the optional third segment is
present; all values are taken at face value with no `cm`/`m` conversion. -/
theorem measure_dims_C8 :
    (∀ name : String, dimScan (normalizeName name) = none →
      (measureParser name).length = none ∧ (measureParser name).width = none ∧
        (measureParser name).height = none) ∧
    (∀ (name : String) (n1 n2 : List Char) (n3 : Option (List Char)),
      dimScan (normalizeName name) = some (n1, n2, n3) →
      (measureParser name).length = some (numVal n1) ∧
        (measureParser name).width = some (numVal n2) ∧
        (measureParser name).height = n3.map numVal) ∧
    (measureParser "Tapete 100cm x 50cm").length = some 100 ∧
    (measureParser "Tapete 100cm x 50cm").width = some 50 ∧
    (measureParser "Tapete 100cm x 50cm").height = none ∧
    (measureParser "Caixa 30cm/20cm/10cm").length = some 30 ∧
    (measureParser "Caixa 30cm/20cm/10cm").width = some 20 ∧
    (measureParser "Caixa 30cm/20cm/10cm").height = some 10 ∧
    (measureParser "Tela 2m x 300cm").length = some 2 ∧
    (measureParser "Tela 2m x 300cm").width = some 300 := by
  have hsome : ∀ (name : String) (n1 n2 : List Char) (n3 : Option (List Char)),
      dimScan (normalizeName name) = some (n1, n2, n3) →
      (measureParser name).length = some (numVal n1) ∧
        (measureParser name).width = some (numVal n2) ∧
        (measureParser name).height = n3.map numVal := by
    intro name n1 n2 n3 h
    refine ⟨?_, ?_, ?_⟩ <;> simp [measureParser, h]
  have h1 := hsome "Tapete 100cm x 50cm" ['1','0','0'] ['5','0'] none (by decide)
  have h2 := hsome "Caixa 30cm/20cm/10cm" ['3','0'] ['2','0'] (some ['1','0']) (by decide)
  have h3 := hsome "Tela 2m x 300cm" ['2'] ['3','0','0'] none (by decide)
  refine ⟨?_, hsome, ?_, ?_, ?_, ?_, ?_, ?_, ?_, ?_⟩
  · intro name h
    refine ⟨?_, ?_, ?_⟩ <;> simp [measureParser, h]
  · rw [h1.1, numVal_digits_eq ['1','0','0'] 100 (by decide) (by decide)]
    norm_num
  · rw [h1.2.1, numVal_digits_eq ['5','0'] 50 (by decide) (by decide)]
    norm_num
  · rw [h1.2.2]
    rfl
  · rw [h2.1, numVal_digits_eq ['3','0'] 30 (by decide) (by decide)]
    norm_num
  · rw [h2.2.1, numVal_digits_eq ['2','0'] 20 (by decide) (by decide)]
    norm_num
  · rw [h2.2.2, Option.map_some', numVal_digits_eq ['1','0'] 10 (by decide) (by decide)]
    norm_num
  · rw [h3.1, numVal_digits_eq ['2'] 2 (by decide) (by decide)]
    norm_num
  · rw [h3.2.1, numVal_digits_eq ['3','0','0'] 300 (by decide) (by decide)]
    norm_num

theorem measure_dims_C8_witness :
    (measureParser "Caixa 30cm/20cm/10cm").length = some (numVal ['3','0']) ∧
    (measureParser "Caixa 30cm/20cm/10cm").width = some (numVal ['2','0']) ∧
    (measureParser "Caixa 30cm/20cm/10cm").height = (some ['1','0']).map numVal :=
  measure_dims_C8.2.1 "Caixa 30cm/20cm/10cm" ['3','0'] ['2','0'] (some ['1','0']) (by decide)

/-- C10: in every parsed measures record, width is present exactly when
length is, height only when both are, and every present value is a
nonnegative number. -/
theorem measures_invariant_C10 (name : String) :
    ((measureParser name).length = none ↔ (measureParser name).width = none) ∧
    ((measureParser name).height.isSome →
      (measureParser name).length.isSome ∧ (measureParser name).width.isSome) ∧
    (∀ q : ℚ, (measureParser name).weight = some q → 0 ≤ q) ∧
    (∀ q : ℚ, (measureParser name).length = some q → 0 ≤ q) ∧
    (∀ q : ℚ, (measureParser name).width = some q → 0 ≤ q) ∧
    (∀ q : ℚ, (measureParser name).height = some q → 0 ≤ q) := by
  have hwq : ∀ q : ℚ, (measureParser name).weight = some q → 0 ≤ q := by
    intro q hq
    rcases hw : weightScan none (normalizeName name) with _ | ⟨nc, u⟩ <;>
      rcases hd : dimScan (normalizeName name) with _ | ⟨n1, n2, n3⟩ <;>
        simp [measureParser, hw, hd] at hq <;>
          · rw [← hq]
            apply roundTo_nonneg
            split_ifs
            · exact div_nonneg (numVal_nonneg nc) (by norm_num)
            · exact numVal_nonneg nc
  rcases hd : dimScan (normalizeName name) with _ | ⟨n1, n2, n3⟩
  · refine ⟨by simp [measureParser, hd], by simp [measureParser, hd], hwq, ?_, ?_, ?_⟩ <;>
      · intro q hq
        simp [measureParser, hd] at hq
  · refine ⟨by simp [measureParser, hd], by simp [measureParser, hd], hwq, ?_, ?_, ?_⟩
    · intro q hq
      simp [measureParser, hd] at hq
      rw [← hq]
      exact numVal_nonneg n1
    · intro q hq
      simp [measureParser, hd] at hq
      rw [← hq]
      exact numVal_nonneg n2
    · intro q hq
      rcases n3 with _ | n3v <;> simp [measureParser, hd] at hq
      rw [← hq]
      exact numVal_nonneg n3v

theorem measures_invariant_C10_witness :
    ((measureParser "Caixa 30cm/20cm/10cm").length.isSome ∧
      (measureParser "Caixa 30cm/20cm/10cm").width.isSome) ∧
    (0 : ℚ) ≤ numVal ['1','0'] ∧
    (0 : ℚ) ≤ roundTo 3 (numVal ['5']) :=
  ⟨(measures_invariant_C10 "Caixa 30cm/20cm/10cm").2.1 (by decide),
    (measures_invariant_C10 "Caixa 30cm/20cm/10cm").2.2.2.2.2
      (numVal ['1','0'])
      (by simp [measureParser, show dimScan (normalizeName "Caixa 30cm/20cm/10cm") =
        some (['3','0'], ['2','0'], some ['1','0']) from by decide]),
    (measures_invariant_C10 "Arroz 5kg").2.2.1 (roundTo 3 (numVal ['5']))
      (by simp [measureParser, show weightScan none (normalizeName "Arroz 5kg") =
          some (['5'], ['k','g']) from by decide,
        show dimScan (normalizeName "Arroz 5kg") = none from by decide,
        if_neg (show ¬ ((['k','g'] : List Char) = ['g']) from by decide)])⟩
